import Mathlib

/-!
Verification of the captioneer worker (`app.py`): the job-claim protocol,
the retrying fetcher, the concurrency gate and the pipeline executor are
shallowly embedded as executable Lean definitions, and the specification's
claims about them are settled as theorems.

Conventions of the embedding:
* the job ledger (Supabase `transcription_jobs` table, single row of
  interest) is `Option JobRecord`; a ledger whose operations raise is the
  `Ledger.raising` constructor;
* Python strings are Lean `String`s; the slice `s[:n]` is `strTake s n`;
* timestamps (`now_iso`) are abstract `Nat` instants;
* network and subprocess effects are oracles passed in as parameters, so
  every run of a function is a pure value that can be evaluated.
-/

namespace Captioneer

/-- Python `s[:500]`-style slicing on code points. -/
def strTake (s : String) (n : Nat) : String := ⟨s.data.take n⟩

/-- Python `str.strip()` on code points. -/
def pyStrip (s : String) : String :=
  ⟨((s.data.dropWhile Char.isWhitespace).reverse.dropWhile Char.isWhitespace).reverse⟩

/-- Python `str.lower()` on code points. -/
def pyLower (s : String) : String := ⟨s.data.map Char.toLower⟩

/-- A row of the `transcription_jobs` table (the fields the worker touches). -/
structure JobRecord where
  status : String
  claimed_by : Option String := none
  claimed_at : Option Nat := none
  updated_at : Option Nat := none
deriving Repr, DecidableEq

/-- `validate_status` from app.py: the only statuses the worker may write. -/
def validate_status (s : String) : Bool :=
  s = "queued" || s = "processing" || s = "completed" || s = "failed"

/-- The conditional update of `claim_job`:
`update({status:"processing", claimed_by:"captioneerworker", claimed_at:now,
updated_at:now}).eq("id", job_id).eq("status", "queued")`.
Returns the new ledger row and the affected row (if any), which is what
`supa_exec` hands back. This single call is the ledger's atomic step. -/
def casQueued (now : Nat) : Option JobRecord → Option JobRecord × Option JobRecord
  | some r =>
    if r.status = "queued" then
      let r' : JobRecord :=
        { r with status := "processing", claimed_by := some "captioneerworker",
                 claimed_at := some now, updated_at := some now }
      (some r', some r')
    else (some r, none)
  | none => (none, none)

/-- The re-read of `claim_job`:
`select(...).eq("id", job_id).eq("status", "processing")` — yields the row
only when its status is `processing`. -/
def readProcessing : Option JobRecord → Option JobRecord
  | some r => if r.status = "processing" then some r else none
  | none => none

/-- A ledger that either holds the row or raises on every operation
(`claim_job` wraps its ledger calls in `try/except`). -/
inductive Ledger where
  | avail (rec : Option JobRecord)
  | raising
deriving Repr, DecidableEq

/-- `claim_job` from app.py: conditional update guarded by `status == queued`;
if no row was affected, re-read the row filtered to `status == processing`
and return it when present; on any ledger exception return `None`. -/
def claim_job (led : Ledger) (now : Nat) : Ledger × Option JobRecord :=
  match led with
  | .raising => (.raising, none)
  | .avail st =>
    let upd := casQueued now st
    match upd.2 with
    | some r => (.avail upd.1, some r)
    | none => (.avail upd.1, readProcessing upd.1)

/-- One atomic ledger operation issued by a claim attempt: the guarded
update, or the follow-up read used after a lost update. -/
inductive ClaimOp where
  | cas (now : Nat)
  | readP
deriving Repr, DecidableEq

/-- Execute one claim operation against the ledger row, returning the new
row and the rows handed back to the caller. -/
def claimStep : Option JobRecord → ClaimOp → Option JobRecord × Option JobRecord
  | st, .cas now => casQueued now st
  | st, .readP => (st, readProcessing st)

/-- Run an arbitrary interleaving (schedule) of claim operations issued by
concurrent claim attempts; each list entry is one atomic ledger operation.
Returns the final row and each operation's result. -/
def runOps : Option JobRecord → List ClaimOp → Option JobRecord × List (ClaimOp × Option JobRecord)
  | st, [] => (st, [])
  | st, op :: ops =>
    let s1 := claimStep st op
    let rest := runOps s1.1 ops
    (rest.1, (op, s1.2) :: rest.2)

/-- A scheduled operation was a conditional update that affected the row. -/
def isCasWin : ClaimOp × Option JobRecord → Bool
  | (.cas _, some _) => true
  | _ => false

/-- Number of winning conditional updates in a schedule's results. -/
def casWins (l : List (ClaimOp × Option JobRecord)) : Nat := (l.filter isCasWin).length

/-- Whether a schedule contains at least one conditional update. -/
def hasCas (l : List ClaimOp) : Bool :=
  l.any fun op => match op with | .cas _ => true | .readP => false

/-- The row is present and in `queued` status. -/
def stQueued : Option JobRecord → Bool
  | some r => r.status = "queued"
  | none => false

/-- Body of `POST /enqueue` as parsed by Flask. -/
structure EnqueueBody where
  job_id : Option String := none
  signed_url : Option String := none
  bytes : Option Nat := none
  content_type : Option String := none
deriving Repr, DecidableEq

/-- The JSON body + code of the worker's HTTP replies (fields used). -/
structure HttpResponse where
  code : Nat
  ok : Bool
  claimed : Option Bool := none
  error : Option String := none
  job_id : Option String := none
deriving Repr, DecidableEq

/-- Bearer-token check of `/enqueue`:
`auth.lower().startswith("bearer ") and auth.split(" ", 1)[1].strip() == WORKER_TOKEN`
(when the lowercase check passes, the first space sits at index 6, so the
split remainder is `auth[7:]`). -/
def authOk (auth token : String) : Bool :=
  "bearer ".data.isPrefixOf (pyLower auth).data && pyStrip ⟨auth.data.drop 7⟩ == token

/-- One character slot of the UUID regex
`^[0-9a-f]{8}-[0-9a-f]{4}-[1-5][0-9a-f]{3}-[89ab][0-9a-f]{3}-[0-9a-f]{12}$`
compiled with `re.I`. -/
def isHexChar (c : Char) : Bool :=
  (('0' ≤ c) && (c ≤ '9')) || (('a' ≤ c) && (c ≤ 'f')) || (('A' ≤ c) && (c ≤ 'F'))

def uuidSlotOk (i : Nat) (c : Char) : Bool :=
  if i = 8 || i = 13 || i = 18 || i = 23 then c = '-'
  else if i = 14 then ('1' ≤ c) && (c ≤ '5')
  else if i = 19 then c = '8' || c = '9' || c = 'a' || c = 'b' || c = 'A' || c = 'B'
  else isHexChar c

/-- `is_uuid` from app.py: strip, then full match against `UUID_RE`. -/
def is_uuid (s : String) : Bool :=
  let t := (pyStrip s).data
  t.length = 36 && t.enum.all fun p => uuidSlotOk p.1 p.2

/-- The `/enqueue` route from app.py. Returns the HTTP response and whether
a pipeline thread was started. `isJson` stands for `request.is_json`. -/
def enqueue (workerToken auth : String) (isJson : Bool) (body : EnqueueBody)
    (led : Ledger) (now : Nat) : HttpResponse × Bool :=
  if ¬ authOk (pyStrip auth) workerToken then
    ({ code := 401, ok := false, error := some "unauthorized" }, false)
  else if ¬ isJson then
    ({ code := 400, ok := false, error := some "content_type_not_json" }, false)
  else
    match body.job_id with
    | none => ({ code := 400, ok := false, error := some "bad_job_id" }, false)
    | some jid =>
      if jid = "" || ¬ is_uuid jid then
        ({ code := 400, ok := false, error := some "bad_job_id" }, false)
      else
        match body.signed_url with
        | none => ({ code := 400, ok := false, error := some "missing_signed_url" }, false)
        | some u =>
          if u = "" then
            ({ code := 400, ok := false, error := some "missing_signed_url" }, false)
          else
            match (claim_job led now).2 with
            | none => ({ code := 202, ok := true, claimed := some false, job_id := some jid }, false)
            | some _ => ({ code := 202, ok := true, claimed := some true, job_id := some jid }, true)

/-- The spec's end-to-end fixture job id. -/
def fixtureId : String := "123e4567-e89b-12d3-a456-426614174000"

/-! ### RetryingFetcher (`download_signed_url`, `backoff`) -/

/-- Outcome of one HTTP GET attempt inside `download_signed_url`. -/
inductive AttemptOutcome where
  | preFail (e : String)
  | bodyFail (e : String)
  | delivered (total : Nat)
deriving Repr, DecidableEq

/-- Observable filesystem/timing events of one fetch; temp files are named
by the attempt index that created them. -/
inductive FetchEvent where
  | tmpCreate (k : Nat)
  | tmpRemove (k : Nat)
  | sleepMs (ms : Nat)
deriving Repr, DecidableEq

/-- Result of `download_signed_url`. `sizeMismatch` is the `RuntimeError`
raised by the integrity check; it is not a `requests.RequestException`, so
it escapes the retry loop at once and leaves temp file `leaked` on disk.
`exhausted` is the final `RuntimeError` raised after the loop ends. -/
inductive FetchResult where
  | ok (file total : Nat)
  | sizeMismatch (got expected : Nat) (leaked : Nat)
  | exhausted (msg : String)
deriving Repr, DecidableEq

/-- `backoff` from app.py, in milliseconds: `RETRY_BASE_MS * (2 ** attempt)`
(the code divides by 1000.0 only to convert to seconds for `time.sleep`). -/
def backoff (base k : Nat) : Nat := base * 2 ^ k

/-- The integrity check
`expected_bytes and abs(total - expected_bytes) / expected_bytes > 0.01`
(an `expected_bytes` of `None` or `0` is falsy, skipping the check). Over
exact rationals, `|total - e| / e > 1/100` iff `100 * |total - e| > e`. -/
def sizeBad (expected : Option Nat) (total : Nat) : Bool :=
  match expected with
  | none => false
  | some 0 => false
  | some e => decide (e < 100 * (Int.natAbs ((total : Int) - (e : Int))))

/-- Last error of an attempt outcome, when it is a `requests.RequestException`. -/
def errOf : AttemptOutcome → Option String
  | .preFail e => some e
  | .bodyFail e => some e
  | .delivered _ => none

/-- The retry loop of `download_signed_url`, recursing over the remaining
attempts (`fuel` starts at `RETRY_COUNT + 1`, matching
`while attempt <= RETRY_COUNT`). On a `requests.RequestException` it sleeps
`backoff(attempt)`, deletes the partial temp file if one was created, and
retries; a delivered body is size-checked, and a failed check raises
immediately (uncaught by the `except requests.RequestException` handler). -/
def downloadGo (rc base : Nat) (expected : Option Nat) (att : Nat → AttemptOutcome) :
    Nat → Nat → String → FetchResult × List FetchEvent
  | _, 0, lastErr =>
    (.exhausted ("Download failed after " ++ toString rc ++ " retries: " ++ lastErr), [])
  | k, fuel + 1, _ =>
    match att k with
    | .preFail e =>
      let rest := downloadGo rc base expected att (k + 1) fuel e
      (rest.1, .sleepMs (backoff base k) :: rest.2)
    | .bodyFail e =>
      let rest := downloadGo rc base expected att (k + 1) fuel e
      (rest.1, .tmpCreate k :: .sleepMs (backoff base k) :: .tmpRemove k :: rest.2)
    | .delivered total =>
      if sizeBad expected total then
        (.sizeMismatch total (expected.getD 0) k, [.tmpCreate k])
      else
        (.ok k total, [.tmpCreate k])

/-- `download_signed_url` from app.py, with the retry count and backoff base
as parameters (`RETRY_COUNT`, `RETRY_BASE_MS` env values; defaults 3, 500).
The initial `last_err` is Python's `None`. -/
def download_signed_url (rc base : Nat) (expected : Option Nat)
    (att : Nat → AttemptOutcome) : FetchResult × List FetchEvent :=
  downloadGo rc base expected att 0 (rc + 1) "None"

/-- Sleep durations (ms) of a fetch, in order. -/
def sleepsOf (evs : List FetchEvent) : List Nat :=
  evs.filterMap fun e => match e with | .sleepMs ms => some ms | _ => none

/-! ### PipelineExecutor (`process_job_async`, `update_job`) -/

/-- Local files a pipeline run can create: the downloaded media file of a
given fetch attempt, and the extracted-audio file. -/
inductive TmpFile where
  | media (k : Nat)
  | audio
deriving Repr, DecidableEq

/-- Observable events of a pipeline run: concurrency-slot acquire/release,
`update_job` write attempts (status, error payload, whether the ledger
accepted it), and temp-file lifecycle. -/
inductive PEvent where
  | acquire
  | release
  | write (status : String) (error : Option String) (ok : Bool)
  | tmpCreate (f : TmpFile)
  | tmpRemove (f : TmpFile)
deriving Repr, DecidableEq

/-- Audio extraction outcome (`extract_audio`): the temp `.wav` is created
by `tempfile.mkstemp` before `ffmpeg` runs, so a failing run has already
created it. -/
inductive ExtractOutcome where
  | fail (e : String)
  | ok (size : Nat)
deriving Repr

/-- Environment of one `process_job_async` run: configuration plus oracles
for every external effect. `ledgerFail k` is the exception message raised by
the `k`-th `update_job` call of this run, if the ledger rejects it. -/
structure PipelineEnv where
  rc : Nat := 3
  base : Nat := 500
  audioOnly : Bool := true
  ffmpegOk : Bool := true
  expected : Option Nat := none
  att : Nat → AttemptOutcome := fun _ => .delivered 1
  ledgerFail : Nat → Option String := fun _ => none
  extractOut : ExtractOutcome := .ok 1
  whisper : Except String Nat := .ok 1
  upload : Except String String := .ok "url"

/-- `update_job` from app.py: validates the status (raising `ValueError` on
an invalid one), then issues the ledger write; a ledger exception is logged
and re-raised (`raise` on line 139). `.error` is a raised exception. -/
def update_job (lf : Nat → Option String) (k : Nat) (st : String) : Except String Unit :=
  if ¬ validate_status st then .error ("Invalid status: " ++ st)
  else match lf k with
    | none => .ok ()
    | some m => .error m

/-- The `finally` block of `process_job_async` plus the exit of the
`with _CONCURRENCY` block: remove the media/audio paths that were assigned,
then release the slot. -/
def finallyEvents (media audio : Option TmpFile) : List PEvent :=
  (media.toList.map PEvent.tmpRemove) ++ (audio.toList.map PEvent.tmpRemove) ++ [PEvent.release]

/-- The outer `except Exception` handler of `process_job_async`: write
`status=failed, error="Unexpected error: " + str(e)[:500]`; if that write
itself raises, the new exception escapes the function (after `finally`). -/
def outerFail (lf : Nat → Option String) (k : Nat) (emsg : String)
    (media audio : Option TmpFile) : List PEvent × Option String :=
  let msg := "Unexpected error: " ++ strTake emsg 500
  match update_job lf k "failed" with
  | .ok _ => (PEvent.write "failed" (some msg) true :: finallyEvents media audio, none)
  | .error m2 => (PEvent.write "failed" (some msg) false :: finallyEvents media audio, some m2)

/-- A per-stage `except` handler of `process_job_async`: write
`status=failed, error=<stage tag> + str(e)[:500]` and return; if that write
raises, control transfers to the outer `except Exception` handler. -/
def stageFail (lf : Nat → Option String) (k : Nat) (tag emsg : String)
    (media audio : Option TmpFile) : List PEvent × Option String :=
  let msg := tag ++ strTake emsg 500
  match update_job lf k "failed" with
  | .ok _ => (PEvent.write "failed" (some msg) true :: finallyEvents media audio, none)
  | .error m2 =>
    let rest := outerFail lf (k + 1) m2 media audio
    (PEvent.write "failed" (some msg) false :: rest.1, rest.2)

/-- Stages 3–5 of `process_job_async`: Whisper transcription, VTT upload,
and the final `status=completed` write (whose failure goes to the outer
handler). -/
def pipeAfterExtract (env : PipelineEnv) (done : List PEvent)
    (media audio : Option TmpFile) : List PEvent × Option String :=
  match env.whisper with
  | .error e =>
    let r := stageFail env.ledgerFail 1 "Whisper failed: " e media audio
    (done ++ r.1, r.2)
  | .ok _ =>
    match env.upload with
    | .error e =>
      let r := stageFail env.ledgerFail 1 "Upload failed: " e media audio
      (done ++ r.1, r.2)
    | .ok _ =>
      match update_job env.ledgerFail 1 "completed" with
      | .ok _ => (done ++ PEvent.write "completed" none true :: finallyEvents media audio, none)
      | .error m =>
        let r := outerFail env.ledgerFail 2 m media audio
        (done ++ PEvent.write "completed" none false :: r.1, r.2)

/-- Stage 2 of `process_job_async`: optional audio extraction. When
`extract_audio` fails, its temp `.wav` already exists but the `audio_path`
variable was never assigned, so the `finally` block cannot remove it. When
`ffmpeg` is unavailable, `extract_audio` raises before creating the file. -/
def pipeAfterDownload (env : PipelineEnv) (done : List PEvent)
    (media : Option TmpFile) : List PEvent × Option String :=
  match env.audioOnly with
  | false => pipeAfterExtract env done media none
  | true =>
    match env.ffmpegOk with
    | false =>
      let r := stageFail env.ledgerFail 1 "Audio extraction failed: "
        "ffmpeg not available on worker; set AUDIO_ONLY=false" media none
      (done ++ r.1, r.2)
    | true =>
      match env.extractOut with
      | .fail e =>
        let r := stageFail env.ledgerFail 1 "Audio extraction failed: " e media none
        (done ++ PEvent.tmpCreate TmpFile.audio :: r.1, r.2)
      | .ok _ =>
        pipeAfterExtract env (done ++ [PEvent.tmpCreate TmpFile.audio]) media (some TmpFile.audio)

/-- Map a fetch's temp-file events into pipeline events (sleeps dropped). -/
def fetchToP : FetchEvent → Option PEvent
  | .tmpCreate k => some (.tmpCreate (.media k))
  | .tmpRemove k => some (.tmpRemove (.media k))
  | .sleepMs _ => none

/-- `process_job_async` from app.py: acquire the semaphore (`with
_CONCURRENCY`), write `status=processing`, run download → optional audio
extraction → transcription → upload → final write, each stage guarded by
its own `except` handler, everything by the outer handler, with `finally`
cleanup of the assigned paths and the slot release on every exit path.
Returns the run's event trace and the exception escaping the function, if
any. When the download fails (either kind of `RuntimeError`), `media_path`
was never assigned, so the size-mismatch path leaves its temp file behind. -/
def process_job_async (env : PipelineEnv) : List PEvent × Option String :=
  match update_job env.ledgerFail 0 "processing" with
  | .error m =>
    let r := outerFail env.ledgerFail 1 m none none
    (PEvent.acquire :: PEvent.write "processing" none false :: r.1, r.2)
  | .ok _ =>
    let dl := download_signed_url env.rc env.base env.expected env.att
    let dEv := dl.2.filterMap fetchToP
    match dl.1 with
    | .sizeMismatch got exp _ =>
      let r := stageFail env.ledgerFail 1 "Download failed: "
        ("Size mismatch: got " ++ toString got ++ ", expected " ++ toString exp) none none
      (PEvent.acquire :: PEvent.write "processing" none true :: (dEv ++ r.1), r.2)
    | .exhausted msg =>
      let r := stageFail env.ledgerFail 1 "Download failed: " msg none none
      (PEvent.acquire :: PEvent.write "processing" none true :: (dEv ++ r.1), r.2)
    | .ok k _ =>
      let r := pipeAfterDownload env dEv (some (TmpFile.media k))
      (PEvent.acquire :: PEvent.write "processing" none true :: r.1, r.2)

/-- Statuses carried by the `update_job` attempts of a trace, in order. -/
def statusesOf (evs : List PEvent) : List String :=
  evs.filterMap fun e => match e with | .write s _ _ => some s | _ => none

/-- Error strings carried by `status=failed` write attempts of a trace. -/
def failedErrors (evs : List PEvent) : List String :=
  evs.filterMap fun e =>
    match e with
    | .write s (some m) _ => if s = "failed" then some m else none
    | _ => none

/-- Temp files created during a trace. -/
def createdTemps (evs : List PEvent) : List TmpFile :=
  evs.filterMap fun e => match e with | .tmpCreate f => some f | _ => none

/-- Temp files removed during a trace. -/
def removedTemps (evs : List PEvent) : List TmpFile :=
  evs.filterMap fun e => match e with | .tmpRemove f => some f | _ => none

/-- Temp files created but never removed during a trace. -/
def leakedTemps (evs : List PEvent) : List TmpFile :=
  (createdTemps evs).filter fun f => ¬ f ∈ removedTemps evs

/-! ### ConcurrencyGate (`_CONCURRENCY = threading.BoundedSemaphore(N)`) -/

/-- Abstract state of `N`-slot semaphore admission over a population of
identical pipeline tasks: how many slots are free and how many tasks are
before, inside, and past their `with _CONCURRENCY` block. -/
structure GateCounts where
  free : Nat
  idle : Nat
  holding : Nat
  done : Nat
deriving Repr, DecidableEq

/-- A scheduler step: some idle task tries to enter the gate (blocking if no
slot is free), or some holding task leaves and releases its slot. -/
inductive GStep where
  | start
  | finish
deriving Repr, DecidableEq

def gateStep (s : GateCounts) : GStep → GateCounts
  | .start =>
    if 0 < s.idle ∧ 0 < s.free then
      { free := s.free - 1, idle := s.idle - 1, holding := s.holding + 1, done := s.done }
    else s
  | .finish =>
    if 0 < s.holding then
      { free := s.free + 1, idle := s.idle, holding := s.holding - 1, done := s.done + 1 }
    else s

/-- Run a schedule of gate steps. -/
def gateRun (s0 : GateCounts) (sched : List GStep) : GateCounts := sched.foldl gateStep s0

/-- Launch state: `n` free slots (`MAX_CONCURRENT_JOBS`), `k` spawned
pipeline threads waiting to acquire. -/
def gateInit (n k : Nat) : GateCounts := { free := n, idle := k, holding := 0, done := 0 }

/-! ### Trace predicates -/

/-- Concurrency-gate interactions of a trace. -/
def isGate : PEvent → Bool
  | .acquire => true
  | .release => true
  | _ => false

/-- A `status=failed` ledger write attempt. -/
def isFailedWrite : PEvent → Bool
  | .write s _ _ => s = "failed"
  | _ => false

/-- Events that may legitimately follow a stage failure: further `failed`
writes, temp-file cleanup, and the slot release — but no stage work and no
non-`failed` status write. -/
def windDown : PEvent → Bool
  | .write s _ _ => s = "failed"
  | .tmpRemove _ => true
  | .release => true
  | _ => false

/-- A stage failure aborts the pipeline: after the first `failed` write,
only wind-down events occur. -/
def abortsOk : List PEvent → Bool
  | [] => true
  | e :: rest => if isFailedWrite e then rest.all windDown else abortsOk rest

/-- The five stage tags `process_job_async` puts in front of error strings. -/
def stageTags : List String :=
  ["Download failed: ", "Audio extraction failed: ", "Whisper failed: ",
   "Upload failed: ", "Unexpected error: "]

/-- Shape of every ledger `error` string: a stage tag followed by the
truncated exception text; total length at most 25 + 500. -/
def errShapeOk (m : String) : Bool :=
  (stageTags.any fun tag => tag.data.isPrefixOf m.data) && m.length ≤ 525

/-! ## Claim-protocol lemmas -/

lemma claimStep_fst_of_not_queued (st : Option JobRecord) (op : ClaimOp)
    (h : stQueued st = false) : (claimStep st op).1 = st := by
  cases op with
  | readP => rfl
  | cas now =>
    cases st with
    | none => rfl
    | some r =>
      have hr : ¬ r.status = "queued" := by simpa [stQueued] using h
      simp [claimStep, casQueued, hr]

lemma claimStep_win_of_not_queued (st : Option JobRecord) (op : ClaimOp)
    (h : stQueued st = false) : isCasWin (op, (claimStep st op).2) = false := by
  cases op with
  | readP =>
    cases hres : (claimStep st .readP).2 <;> simp [isCasWin]
  | cas now =>
    cases st with
    | none => simp [claimStep, casQueued, isCasWin]
    | some r =>
      have hr : ¬ r.status = "queued" := by simpa [stQueued] using h
      simp [claimStep, casQueued, hr, isCasWin]

lemma casWins_cons (x : ClaimOp × Option JobRecord) (l : List (ClaimOp × Option JobRecord)) :
    casWins (x :: l) = (if isCasWin x then 1 else 0) + casWins l := by
  by_cases h : isCasWin x <;> simp [casWins, List.filter_cons, h, Nat.add_comm]

lemma runOps_not_queued (ops : List ClaimOp) :
    ∀ st, stQueued st = false → casWins (runOps st ops).2 = 0 := by
  induction ops with
  | nil => intro st _; simp [runOps, casWins]
  | cons op ops ih =>
    intro st h
    have h1 := claimStep_fst_of_not_queued st op h
    have h2 := claimStep_win_of_not_queued st op h
    simp only [runOps, casWins_cons, h2, if_false, h1, Bool.false_eq_true]
    simpa using ih st h

lemma runOps_queued (ops : List ClaimOp) :
    ∀ r : JobRecord, r.status = "queued" →
      casWins (runOps (some r) ops).2 = if hasCas ops then 1 else 0 := by
  induction ops with
  | nil => intro r _; simp [runOps, casWins, hasCas]
  | cons op ops ih =>
    intro r hq
    cases op with
    | cas now =>
      have hwin : isCasWin (ClaimOp.cas now, (claimStep (some r) (.cas now)).2) = true := by
        simp [claimStep, casQueued, hq, isCasWin]
      have hrest : casWins (runOps (claimStep (some r) (.cas now)).1 ops).2 = 0 := by
        apply runOps_not_queued
        simp [claimStep, casQueued, hq, stQueued]
      simp [runOps, casWins_cons, hwin, hrest, hasCas]
    | readP =>
      have hwin : isCasWin (ClaimOp.readP, (claimStep (some r) .readP).2) = false := by
        cases hres : (claimStep (some r) .readP).2 <;> simp [isCasWin]
      have hstep : (claimStep (some r) .readP).1 = some r := rfl
      simp only [runOps, casWins_cons, hwin, if_false, hstep, Bool.false_eq_true]
      have := ih r hq
      simp only [hasCas, List.any_cons] at *
      simpa using this

/-! ## Theorems for the claims -/

/-- C1 (amended): among all concurrent claim attempts on the same `queued`
job id — modelled as an arbitrary interleaving of their atomic ledger
operations — exactly one attempt performs the winning conditional
`queued → processing` transition; but an attempt that lost the conditional
update and re-reads the record in `processing` status receives the record
back (so the route reports `claimed:true`), not `NotAvailable`. -/
theorem claim_race_exactly_one_winner (r : JobRecord) (now : Nat) (ops : List ClaimOp)
    (hq : r.status = "queued") (hc : hasCas ops = true) :
    casWins (runOps (some r) ops).2 = 1 ∧
    ∀ r' : JobRecord, r'.status = "processing" →
      claim_job (.avail (some r')) now = (.avail (some r'), some r') := by
  constructor
  · rw [runOps_queued ops r hq, hc]; rfl
  · intro r' hp
    have h1 : ¬ r'.status = "queued" := by rw [hp]; decide
    simp [claim_job, casQueued, readProcessing, h1, hp]

/-- Witness for C1's amended theorem at a concrete schedule: two conditional
updates and one re-read on an initially queued record. -/
theorem claim_race_exactly_one_winner_witness :
    casWins (runOps (some { status := "queued" })
        [ClaimOp.cas 1, ClaimOp.readP, ClaimOp.cas 2]).2 = 1 ∧
    claim_job (.avail (some { status := "processing" })) 7
      = (.avail (some { status := "processing" }), some { status := "processing" }) := by
  have h := claim_race_exactly_one_winner { status := "queued" } 7
    [ClaimOp.cas 1, ClaimOp.readP, ClaimOp.cas 2] rfl (by decide)
  exact ⟨h.1, h.2 { status := "processing" } rfl⟩

/-- C1 counterexample: after one claimant wins the race on a queued record,
a second claimant's `claim_job` does NOT observe `NotAvailable` — the
re-read returns the now-`processing` record, and `/enqueue` replies
`claimed:true` for the loser. -/
theorem claim_race_loser_reports_claimed_true :
    (claim_job ((claim_job (.avail (some { status := "queued" })) 5).1) 6).2 ≠ none ∧
    (enqueue "t" "Bearer t" true { job_id := some fixtureId, signed_url := some "u" }
        ((claim_job (.avail (some { status := "queued" })) 5).1) 6).1.claimed = some true := by
  decide

/-- C2 (amended): claiming a job whose record is in `completed` or `failed`
status, or does not exist, is a no-op returning `NotAvailable`; but claiming
a job in `processing` status returns the record (observed as a successful
claim), because the re-read after the failed conditional update hands the
`processing` row back instead of `None`. -/
theorem claim_not_queued_behavior (r : JobRecord) (now : Nat) :
    (r.status = "completed" ∨ r.status = "failed" →
      claim_job (.avail (some r)) now = (.avail (some r), none)) ∧
    (r.status = "processing" →
      claim_job (.avail (some r)) now = (.avail (some r), some r)) ∧
    claim_job (.avail none) now = (.avail none, none) := by
  refine ⟨?_, ?_, rfl⟩
  · intro h
    have h1 : ¬ r.status = "queued" := by rcases h with h | h <;> simp [h]
    have h2 : ¬ r.status = "processing" := by rcases h with h | h <;> simp [h]
    simp [claim_job, casQueued, readProcessing, h1, h2]
  · intro hp
    have h1 : ¬ r.status = "queued" := by rw [hp]; decide
    simp [claim_job, casQueued, readProcessing, h1, hp]

/-- Witness for C2's amended theorem on concrete `completed` and
`processing` records. -/
theorem claim_not_queued_behavior_witness :
    claim_job (.avail (some { status := "completed" })) 3
      = (.avail (some { status := "completed" }), none) ∧
    claim_job (.avail (some { status := "processing" })) 3
      = (.avail (some { status := "processing" }), some { status := "processing" }) := by
  exact ⟨(claim_not_queued_behavior { status := "completed" } 3).1 (Or.inl rfl),
    (claim_not_queued_behavior { status := "processing" } 3).2.1 rfl⟩

/-- C2 counterexample: a claim attempt on a record already in `processing`
status is not a `NotAvailable` no-op — `/enqueue` replies `claimed:true`
and starts a (duplicate) pipeline thread. -/
theorem claim_processing_starts_duplicate_pipeline :
    enqueue "t" "Bearer t" true { job_id := some fixtureId, signed_url := some "u" }
        (.avail (some { status := "processing" })) 0
      = ({ code := 202, ok := true, claimed := some true, job_id := some fixtureId }, true) := by
  decide

/-- C10: when the ledger operations inside `claim_job` raise, `/enqueue`
still replies HTTP 202 with `ok:true, claimed:false` and the job id, and
starts no pipeline — identical to a lost race, never an HTTP error. -/
theorem enqueue_ledger_exception_acks_claimed_false (tok auth : String) (body : EnqueueBody)
    (now : Nat) (jid u : String)
    (h1 : authOk (pyStrip auth) tok = true) (h2 : body.job_id = some jid) (h3 : jid ≠ "")
    (h4 : is_uuid jid = true) (h5 : body.signed_url = some u) (h6 : u ≠ "") :
    enqueue tok auth true body .raising now
      = ({ code := 202, ok := true, claimed := some false, job_id := some jid }, false) := by
  simp [enqueue, h1, h2, h3, h4, h5, h6, claim_job]

/-- Witness for C10 at a concrete authorized request with a raising ledger. -/
theorem enqueue_ledger_exception_acks_claimed_false_witness :
    enqueue "secret" "Bearer secret" true
        { job_id := some fixtureId, signed_url := some "https://x" } .raising 0
      = ({ code := 202, ok := true, claimed := some false, job_id := some fixtureId }, false) := by
  exact enqueue_ledger_exception_acks_claimed_false "secret" "Bearer secret"
    { job_id := some fixtureId, signed_url := some "https://x" } 0 fixtureId "https://x"
    (by decide) rfl (by decide) (by decide) rfl (by decide)

/-! ## RetryingFetcher lemmas and theorems -/

lemma downloadGo_all_fail (rc base : Nat) (expected : Option Nat) (att : Nat → AttemptOutcome)
    (f : Nat → String) :
    ∀ (fuel k : Nat) (last : String), k + fuel = rc + 1 →
      (∀ j, k ≤ j → j ≤ rc → errOf (att j) = some (f j)) →
      (downloadGo rc base expected att k fuel last).1
        = FetchResult.exhausted ("Download failed after " ++ toString rc ++ " retries: "
            ++ (if fuel = 0 then last else f rc))
      ∧ sleepsOf (downloadGo rc base expected att k fuel last).2
        = (List.range' k fuel).map (backoff base) := by
  intro fuel
  induction fuel with
  | zero => intro k last _ _; simp [downloadGo, sleepsOf]
  | succ fuel ih =>
    intro k last hk h
    have hkrc : k ≤ rc := by omega
    have hke := h k (le_refl k) hkrc
    have hnext : ∀ j, k + 1 ≤ j → j ≤ rc → errOf (att j) = some (f j) :=
      fun j h1 h2 => h j (by omega) h2
    have hk1 : (k + 1) + fuel = rc + 1 := by omega
    have hiftrans : (if fuel = 0 then f k else f rc) = f rc := by
      by_cases hf : fuel = 0
      · have hkeq : k = rc := by omega
        simp [hf, hkeq]
      · simp [hf]
    cases hak : att k with
    | delivered total =>
      exfalso; rw [hak] at hke; simp [errOf] at hke
    | preFail e =>
      have he : e = f k := by rw [hak] at hke; simpa [errOf] using hke
      have hrec := ih (k + 1) (f k) hk1 hnext
      constructor
      · simpa [downloadGo, hak, he, hiftrans] using hrec.1
      · simp [downloadGo, hak, he, sleepsOf, List.range'_succ]
        simpa [sleepsOf] using hrec.2
    | bodyFail e =>
      have he : e = f k := by rw [hak] at hke; simpa [errOf] using hke
      have hrec := ih (k + 1) (f k) hk1 hnext
      constructor
      · simpa [downloadGo, hak, he, hiftrans] using hrec.1
      · simp [downloadGo, hak, he, sleepsOf, List.range'_succ]
        simpa [sleepsOf] using hrec.2

/-- C6: when every attempt (0 … RETRY_COUNT) fails with a transport-level
`requests.RequestException`, the fetch makes exactly `RETRY_COUNT` retries
after the first attempt, sleeps `base * 2^k` ms after failed attempt `k`,
and the final error carries the last underlying attempt error in its
message. -/
theorem fetch_retry_backoff_last_error (rc base : Nat) (expected : Option Nat)
    (att : Nat → AttemptOutcome) (f : Nat → String)
    (h : ∀ j, j ≤ rc → errOf (att j) = some (f j)) :
    (download_signed_url rc base expected att).1
      = FetchResult.exhausted ("Download failed after " ++ toString rc ++ " retries: " ++ f rc) ∧
    sleepsOf (download_signed_url rc base expected att).2
      = (List.range (rc + 1)).map (backoff base) := by
  have hrun := downloadGo_all_fail rc base expected att f (rc + 1) 0 "None" (by omega)
    (fun j _ hj => h j hj)
  rw [download_signed_url]
  constructor
  · rw [hrun.1]; simp
  · rw [hrun.2, List.range_eq_range']

/-- Witness for C6 at the default configuration (`RETRY_COUNT=3`,
`RETRY_BASE_MS=500`): four attempts all failing, backoff 500/1000/2000/4000
ms, final error naming the last attempt's error. -/
theorem fetch_retry_backoff_last_error_witness :
    (download_signed_url 3 500 none (fun _ => AttemptOutcome.preFail "connection reset")).1
      = FetchResult.exhausted "Download failed after 3 retries: connection reset" ∧
    sleepsOf (download_signed_url 3 500 none (fun _ => AttemptOutcome.preFail "connection reset")).2
      = [500, 1000, 2000, 4000] := by
  have h := fetch_retry_backoff_last_error 3 500 none
    (fun _ => AttemptOutcome.preFail "connection reset")
    (fun _ => "connection reset") (fun _ _ => rfl)
  exact ⟨by rw [h.1]; decide, by rw [h.2]; decide⟩

/-- C5 evidence: with `expected_bytes=1000`, a 995-byte transfer (0.5%
deviation) is accepted; but a 900-byte transfer (10% deviation) raises a
`RuntimeError` that escapes the retry loop immediately — even though the
next attempt would have delivered a full 1000 bytes — because the loop
catches only `requests.RequestException`. The integrity failure is NOT
retried like a transport failure. -/
theorem fetch_integrity_check_not_retried :
    (download_signed_url 3 500 (some 1000) (fun _ => AttemptOutcome.delivered 995)).1
      = FetchResult.ok 0 995 ∧
    (download_signed_url 3 500 (some 1000)
        (fun k => if k = 0 then AttemptOutcome.delivered 900 else AttemptOutcome.delivered 1000)).1
      = FetchResult.sizeMismatch 900 1000 0 := by
  decide

/-! ## Pipeline lemmas -/

lemma update_job_valid (lf : Nat → Option String) (k : Nat) (st : String)
    (hv : validate_status st = true) :
    update_job lf k st = match lf k with
      | none => Except.ok ()
      | some m => Except.error m := by
  simp [update_job, hv]

lemma outerFail_eq (lf : Nat → Option String) (k : Nat) (e : String) (m a : Option TmpFile) :
    outerFail lf k e m a = match lf k with
      | none =>
        (PEvent.write "failed" (some ("Unexpected error: " ++ strTake e 500)) true
          :: finallyEvents m a, none)
      | some m2 =>
        (PEvent.write "failed" (some ("Unexpected error: " ++ strTake e 500)) false
          :: finallyEvents m a, some m2) := by
  unfold outerFail
  rw [update_job_valid lf k "failed" (by decide)]
  cases lf k <;> simp

lemma stageFail_eq (lf : Nat → Option String) (k : Nat) (t e : String) (m a : Option TmpFile) :
    stageFail lf k t e m a = match lf k with
      | none =>
        (PEvent.write "failed" (some (t ++ strTake e 500)) true :: finallyEvents m a, none)
      | some m2 =>
        (PEvent.write "failed" (some (t ++ strTake e 500)) false
          :: (outerFail lf (k + 1) m2 m a).1, (outerFail lf (k + 1) m2 m a).2) := by
  unfold stageFail
  rw [update_job_valid lf k "failed" (by decide)]
  cases lf k <;> simp

@[simp] lemma statusesOf_nil : statusesOf [] = [] := rfl

@[simp] lemma statusesOf_cons_write (s : String) (er : Option String) (b : Bool)
    (l : List PEvent) : statusesOf (PEvent.write s er b :: l) = s :: statusesOf l := rfl

@[simp] lemma statusesOf_cons_acquire (l : List PEvent) :
    statusesOf (PEvent.acquire :: l) = statusesOf l := rfl

@[simp] lemma statusesOf_cons_release (l : List PEvent) :
    statusesOf (PEvent.release :: l) = statusesOf l := rfl

@[simp] lemma statusesOf_cons_tmpCreate (f : TmpFile) (l : List PEvent) :
    statusesOf (PEvent.tmpCreate f :: l) = statusesOf l := rfl

@[simp] lemma statusesOf_cons_tmpRemove (f : TmpFile) (l : List PEvent) :
    statusesOf (PEvent.tmpRemove f :: l) = statusesOf l := rfl

@[simp] lemma statusesOf_append (l1 l2 : List PEvent) :
    statusesOf (l1 ++ l2) = statusesOf l1 ++ statusesOf l2 := by
  simp [statusesOf, List.filterMap_append]

@[simp] lemma statusesOf_finally (m a : Option TmpFile) :
    statusesOf (finallyEvents m a) = [] := by
  cases m <;> cases a <;> rfl

@[simp] lemma statusesOf_dEv (l : List FetchEvent) :
    statusesOf (l.filterMap fetchToP) = [] := by
  induction l with
  | nil => rfl
  | cons e l ih => cases e <;> simpa [fetchToP]

lemma statusesOf_outerFail (lf : Nat → Option String) (k : Nat) (e : String)
    (m a : Option TmpFile) : statusesOf (outerFail lf k e m a).1 = ["failed"] := by
  rw [outerFail_eq]; cases lf k <;> simp

lemma statusesOf_stageFail (lf : Nat → Option String) (k : Nat) (t e : String)
    (m a : Option TmpFile) :
    ∀ s ∈ statusesOf (stageFail lf k t e m a).1, s = "completed" ∨ s = "failed" := by
  rw [stageFail_eq]; cases lf k <;> simp [statusesOf_outerFail]

lemma statusesOf_pipeAfterExtract (env : PipelineEnv) (done : List PEvent)
    (media audio : Option TmpFile) :
    ∀ s ∈ statusesOf (pipeAfterExtract env done media audio).1,
      s ∈ statusesOf done ∨ s = "completed" ∨ s = "failed" := by
  unfold pipeAfterExtract
  cases env.whisper with
  | error e =>
    intro s hs
    simp only [statusesOf_append, List.mem_append] at hs
    rcases hs with hs | hs
    · exact Or.inl hs
    · exact Or.inr (statusesOf_stageFail _ _ _ _ _ _ s hs)
  | ok v =>
    cases env.upload with
    | error e =>
      intro s hs
      simp only [statusesOf_append, List.mem_append] at hs
      rcases hs with hs | hs
      · exact Or.inl hs
      · exact Or.inr (statusesOf_stageFail _ _ _ _ _ _ s hs)
    | ok u =>
      rw [update_job_valid env.ledgerFail 1 "completed" (by decide)]
      cases env.ledgerFail 1 with
      | none =>
        intro s hs
        simp only [statusesOf_append, List.mem_append, statusesOf_cons_write,
          statusesOf_finally, List.mem_cons, List.not_mem_nil, or_false] at hs
        rcases hs with hs | hs
        · exact Or.inl hs
        · exact Or.inr (Or.inl hs)
      | some m =>
        intro s hs
        simp only [statusesOf_append, List.mem_append, statusesOf_cons_write,
          statusesOf_outerFail, List.mem_cons, List.not_mem_nil, or_false] at hs
        tauto

lemma process_job_async_eq (env : PipelineEnv) :
    process_job_async env = match env.ledgerFail 0 with
      | some m =>
        (PEvent.acquire :: PEvent.write "processing" none false
          :: (outerFail env.ledgerFail 1 m none none).1,
         (outerFail env.ledgerFail 1 m none none).2)
      | none =>
        match (download_signed_url env.rc env.base env.expected env.att).1 with
        | .sizeMismatch got exp _ =>
          (PEvent.acquire :: PEvent.write "processing" none true
            :: ((download_signed_url env.rc env.base env.expected env.att).2.filterMap fetchToP
              ++ (stageFail env.ledgerFail 1 "Download failed: "
                ("Size mismatch: got " ++ toString got ++ ", expected " ++ toString exp)
                none none).1),
           (stageFail env.ledgerFail 1 "Download failed: "
             ("Size mismatch: got " ++ toString got ++ ", expected " ++ toString exp)
             none none).2)
        | .exhausted msg =>
          (PEvent.acquire :: PEvent.write "processing" none true
            :: ((download_signed_url env.rc env.base env.expected env.att).2.filterMap fetchToP
              ++ (stageFail env.ledgerFail 1 "Download failed: " msg none none).1),
           (stageFail env.ledgerFail 1 "Download failed: " msg none none).2)
        | .ok k _ =>
          (PEvent.acquire :: PEvent.write "processing" none true
            :: (pipeAfterDownload env
              ((download_signed_url env.rc env.base env.expected env.att).2.filterMap fetchToP)
              (some (TmpFile.media k))).1,
           (pipeAfterDownload env
             ((download_signed_url env.rc env.base env.expected env.att).2.filterMap fetchToP)
             (some (TmpFile.media k))).2) := by
  unfold process_job_async
  rw [update_job_valid env.ledgerFail 0 "processing" (by decide)]
  cases env.ledgerFail 0 with
  | none => rfl
  | some m => rfl

lemma statusesOf_pipeAfterDownload (env : PipelineEnv) (done : List PEvent)
    (media : Option TmpFile) :
    ∀ s ∈ statusesOf (pipeAfterDownload env done media).1,
      s ∈ statusesOf done ∨ s = "completed" ∨ s = "failed" := by
  unfold pipeAfterDownload
  cases hao : env.audioOnly with
  | false => exact statusesOf_pipeAfterExtract env done media none
  | true =>
    cases hff : env.ffmpegOk with
    | true =>
      cases env.extractOut with
      | fail e =>
        intro s hs
        simp only [statusesOf_append, List.mem_append, statusesOf_cons_tmpCreate] at hs
        rcases hs with hs | hs
        · exact Or.inl hs
        · exact Or.inr (statusesOf_stageFail _ _ _ _ _ _ s hs)
      | ok v =>
        intro s hs
        have h := statusesOf_pipeAfterExtract env (done ++ [PEvent.tmpCreate TmpFile.audio])
          media (some TmpFile.audio) s hs
        simpa using h
    | false =>
      intro s hs
      simp only [statusesOf_append, List.mem_append] at hs
      rcases hs with hs | hs
      · exact Or.inl hs
      · exact Or.inr (statusesOf_stageFail _ _ _ _ _ _ s hs)

/-- C3 (amended): a pipeline run's first ledger write is `processing` and
every later status write is terminal (`completed` or `failed`); the
intermediate statuses `downloading` and `transcribing` are never written —
indeed `validate_status` rejects them, so `update_job` could not write them
at all. -/
theorem pipeline_status_writes (env : PipelineEnv) :
    ∃ rest, statusesOf (process_job_async env).1 = "processing" :: rest ∧
      (∀ s ∈ rest, s = "completed" ∨ s = "failed") ∧
      validate_status "downloading" = false ∧ validate_status "transcribing" = false := by
  rw [process_job_async_eq]
  cases hlf0 : env.ledgerFail 0 with
  | some m =>
    simp only [statusesOf_cons_acquire, statusesOf_cons_write, statusesOf_outerFail]
    exact ⟨["failed"], rfl, by simp, by decide, by decide⟩
  | none =>
    cases hdl : (download_signed_url env.rc env.base env.expected env.att).1 with
    | sizeMismatch got exp leaked =>
      simp only [statusesOf_cons_acquire, statusesOf_cons_write, statusesOf_append,
        statusesOf_dEv, List.nil_append]
      exact ⟨_, rfl, statusesOf_stageFail _ _ _ _ _ _, by decide, by decide⟩
    | exhausted msg =>
      simp only [statusesOf_cons_acquire, statusesOf_cons_write, statusesOf_append,
        statusesOf_dEv, List.nil_append]
      exact ⟨_, rfl, statusesOf_stageFail _ _ _ _ _ _, by decide, by decide⟩
    | ok k total =>
      simp only [statusesOf_cons_acquire, statusesOf_cons_write]
      refine ⟨_, rfl, ?_, by decide, by decide⟩
      intro s hs
      have h := statusesOf_pipeAfterDownload env _ (some (TmpFile.media k)) s hs
      simpa using h

/-- C3 counterexample: a fully successful pipeline run writes exactly
`processing` then `completed` to the ledger — external observers never see
`downloading` or `transcribing`, which are not even valid statuses. -/
theorem pipeline_no_intermediate_statuses :
    statusesOf (process_job_async {}).1 = ["processing", "completed"] ∧
    validate_status "downloading" = false ∧ validate_status "transcribing" = false := by
  decide

/-! ## Gate-event lemmas -/

@[simp] lemma filter_isGate_nil : List.filter isGate [] = [] := rfl

@[simp] lemma filter_isGate_cons_acquire (l : List PEvent) :
    (PEvent.acquire :: l).filter isGate = PEvent.acquire :: l.filter isGate := rfl

@[simp] lemma filter_isGate_cons_release (l : List PEvent) :
    (PEvent.release :: l).filter isGate = PEvent.release :: l.filter isGate := rfl

@[simp] lemma filter_isGate_cons_write (s : String) (er : Option String) (b : Bool)
    (l : List PEvent) : (PEvent.write s er b :: l).filter isGate = l.filter isGate := rfl

@[simp] lemma filter_isGate_cons_tmpCreate (f : TmpFile) (l : List PEvent) :
    (PEvent.tmpCreate f :: l).filter isGate = l.filter isGate := rfl

@[simp] lemma filter_isGate_cons_tmpRemove (f : TmpFile) (l : List PEvent) :
    (PEvent.tmpRemove f :: l).filter isGate = l.filter isGate := rfl

lemma filter_isGate_finally (m a : Option TmpFile) :
    (finallyEvents m a).filter isGate = [PEvent.release] := by
  cases m <;> cases a <;> rfl

lemma filter_isGate_outerFail (lf : Nat → Option String) (k : Nat) (e : String)
    (m a : Option TmpFile) : ((outerFail lf k e m a).1).filter isGate = [PEvent.release] := by
  rw [outerFail_eq]
  cases lf k <;> simp only [filter_isGate_cons_write, filter_isGate_finally]

lemma filter_isGate_stageFail (lf : Nat → Option String) (k : Nat) (t e : String)
    (m a : Option TmpFile) : ((stageFail lf k t e m a).1).filter isGate = [PEvent.release] := by
  rw [stageFail_eq]
  cases lf k <;>
    simp only [filter_isGate_cons_write, filter_isGate_finally, filter_isGate_outerFail]

lemma filter_isGate_dEv (l : List FetchEvent) :
    (l.filterMap fetchToP).filter isGate = [] := by
  induction l with
  | nil => rfl
  | cons e l ih =>
    cases e with
    | tmpCreate k =>
      show (PEvent.tmpCreate (TmpFile.media k) :: l.filterMap fetchToP).filter isGate = []
      simpa using ih
    | tmpRemove k =>
      show (PEvent.tmpRemove (TmpFile.media k) :: l.filterMap fetchToP).filter isGate = []
      simpa using ih
    | sleepMs ms =>
      show (l.filterMap fetchToP).filter isGate = []
      exact ih

lemma filter_isGate_pipeAfterExtract (env : PipelineEnv) (done : List PEvent)
    (media audio : Option TmpFile) (hdone : done.filter isGate = []) :
    ((pipeAfterExtract env done media audio).1).filter isGate = [PEvent.release] := by
  unfold pipeAfterExtract
  cases env.whisper with
  | error e => simp only [List.filter_append, hdone, filter_isGate_stageFail, List.nil_append]
  | ok v =>
    cases env.upload with
    | error e => simp only [List.filter_append, hdone, filter_isGate_stageFail, List.nil_append]
    | ok u =>
      rw [update_job_valid env.ledgerFail 1 "completed" (by decide)]
      cases env.ledgerFail 1 with
      | none =>
        simp only [List.filter_append, hdone, filter_isGate_cons_write,
          filter_isGate_finally, List.nil_append]
      | some m =>
        simp only [List.filter_append, hdone, filter_isGate_cons_write,
          filter_isGate_outerFail, List.nil_append]

lemma filter_isGate_pipeAfterDownload (env : PipelineEnv) (done : List PEvent)
    (media : Option TmpFile) (hdone : done.filter isGate = []) :
    ((pipeAfterDownload env done media).1).filter isGate = [PEvent.release] := by
  unfold pipeAfterDownload
  cases env.audioOnly with
  | false => exact filter_isGate_pipeAfterExtract env done media none hdone
  | true =>
    cases env.ffmpegOk with
    | false => simp only [List.filter_append, hdone, filter_isGate_stageFail, List.nil_append]
    | true =>
      cases env.extractOut with
      | fail e =>
        simp only [List.filter_append, hdone, filter_isGate_cons_tmpCreate,
          filter_isGate_stageFail, List.nil_append]
      | ok v =>
        apply filter_isGate_pipeAfterExtract
        simp only [List.filter_append, hdone, filter_isGate_cons_tmpCreate,
          filter_isGate_nil, List.nil_append]

lemma gate_events_run (env : PipelineEnv) :
    ((process_job_async env).1).filter isGate = [PEvent.acquire, PEvent.release] := by
  rw [process_job_async_eq]
  cases hlf0 : env.ledgerFail 0 with
  | some m =>
    simp only [filter_isGate_cons_acquire, filter_isGate_cons_write, filter_isGate_outerFail]
  | none =>
    cases hdl : (download_signed_url env.rc env.base env.expected env.att).1 with
    | sizeMismatch got exp leaked =>
      simp only [filter_isGate_cons_acquire, filter_isGate_cons_write, List.filter_append,
        filter_isGate_dEv, filter_isGate_stageFail, List.nil_append]
    | exhausted msg =>
      simp only [filter_isGate_cons_acquire, filter_isGate_cons_write, List.filter_append,
        filter_isGate_dEv, filter_isGate_stageFail, List.nil_append]
    | ok k total =>
      simp only [filter_isGate_cons_acquire, filter_isGate_cons_write,
        filter_isGate_pipeAfterDownload env _ _ (filter_isGate_dEv _)]

lemma gateRun_free_add_holding (sched : List GStep) :
    ∀ s0 : GateCounts, (gateRun s0 sched).free + (gateRun s0 sched).holding
      = s0.free + s0.holding := by
  induction sched with
  | nil => intro s0; rfl
  | cons st sched ih =>
    intro s0
    have h : gateRun s0 (st :: sched) = gateRun (gateStep s0 st) sched := by
      simp [gateRun]
    rw [h, ih (gateStep s0 st)]
    cases st <;> simp [gateStep] <;> split <;> simp <;> omega

/-- C4: the `with _CONCURRENCY` block interacts with the semaphore exactly
once on each side in every pipeline run — one acquire at entry and one
release at exit — on every exit path (success, any stage failure, or an
escaping exception); and under `N`-slot admission, at most `N` pipeline
tasks hold a slot at any instant of any schedule. -/
theorem concurrency_gate_bounded_and_always_released :
    (∀ env : PipelineEnv,
      ((process_job_async env).1).filter isGate = [PEvent.acquire, PEvent.release]) ∧
    (∀ (n k : Nat) (sched : List GStep), (gateRun (gateInit n k) sched).holding ≤ n) := by
  constructor
  · exact gate_events_run
  · intro n k sched
    have h := gateRun_free_add_holding sched (gateInit n k)
    have hf : (gateInit n k).free = n := rfl
    have hh : (gateInit n k).holding = 0 := rfl
    omega

/-! ## Escape lemmas (ledger write failures) -/

lemma escape_outerFail_none (lf : Nat → Option String) (k : Nat) (e : String)
    (m a : Option TmpFile) (h : lf k = none) : (outerFail lf k e m a).2 = none := by
  rw [outerFail_eq, h]

lemma escape_outerFail_some (lf : Nat → Option String) (k : Nat) (e : String)
    (m a : Option TmpFile) (mm : String) :
    (outerFail lf k e m a).2 = some mm → lf k = some mm := by
  rw [outerFail_eq]
  cases hlf : lf k with
  | none => simp
  | some m2 => intro h2; simpa using h2

lemma escape_stageFail_none (lf : Nat → Option String) (k : Nat) (t e : String)
    (m a : Option TmpFile) (h : lf k = none) : (stageFail lf k t e m a).2 = none := by
  rw [stageFail_eq, h]

lemma escape_stageFail_some (lf : Nat → Option String) (k : Nat) (t e : String)
    (m a : Option TmpFile) (mm : String) :
    (stageFail lf k t e m a).2 = some mm → ∃ j, lf j = some mm := by
  rw [stageFail_eq]
  cases hlf : lf k with
  | none => simp
  | some m2 =>
    intro h2
    exact ⟨k + 1, escape_outerFail_some lf (k + 1) m2 m a mm h2⟩

lemma escape_pipeAfterExtract_none (env : PipelineEnv) (done : List PEvent)
    (media audio : Option TmpFile) (h : ∀ j, env.ledgerFail j = none) :
    (pipeAfterExtract env done media audio).2 = none := by
  unfold pipeAfterExtract
  cases env.whisper with
  | error e => exact escape_stageFail_none env.ledgerFail 1 _ _ media audio (h 1)
  | ok v =>
    cases env.upload with
    | error e => exact escape_stageFail_none env.ledgerFail 1 _ _ media audio (h 1)
    | ok u =>
      rw [update_job_valid env.ledgerFail 1 "completed" (by decide), h 1]

lemma escape_pipeAfterExtract_some (env : PipelineEnv) (done : List PEvent)
    (media audio : Option TmpFile) (mm : String) :
    (pipeAfterExtract env done media audio).2 = some mm →
      ∃ j, env.ledgerFail j = some mm := by
  unfold pipeAfterExtract
  cases env.whisper with
  | error e => exact escape_stageFail_some env.ledgerFail 1 _ _ media audio mm
  | ok v =>
    cases env.upload with
    | error e => exact escape_stageFail_some env.ledgerFail 1 _ _ media audio mm
    | ok u =>
      rw [update_job_valid env.ledgerFail 1 "completed" (by decide)]
      cases hlf : env.ledgerFail 1 with
      | none => simp
      | some m2 =>
        intro h2
        exact ⟨2, escape_outerFail_some env.ledgerFail 2 m2 media audio mm h2⟩

lemma escape_pipeAfterDownload_none (env : PipelineEnv) (done : List PEvent)
    (media : Option TmpFile) (h : ∀ j, env.ledgerFail j = none) :
    (pipeAfterDownload env done media).2 = none := by
  unfold pipeAfterDownload
  cases env.audioOnly with
  | false => exact escape_pipeAfterExtract_none env done media none h
  | true =>
    cases env.ffmpegOk with
    | false => exact escape_stageFail_none env.ledgerFail 1 _ _ media none (h 1)
    | true =>
      cases env.extractOut with
      | fail e => exact escape_stageFail_none env.ledgerFail 1 _ _ media none (h 1)
      | ok v => exact escape_pipeAfterExtract_none env _ media (some TmpFile.audio) h

lemma escape_pipeAfterDownload_some (env : PipelineEnv) (done : List PEvent)
    (media : Option TmpFile) (mm : String) :
    (pipeAfterDownload env done media).2 = some mm → ∃ j, env.ledgerFail j = some mm := by
  unfold pipeAfterDownload
  cases env.audioOnly with
  | false => exact escape_pipeAfterExtract_some env done media none mm
  | true =>
    cases env.ffmpegOk with
    | false => exact escape_stageFail_some env.ledgerFail 1 _ _ media none mm
    | true =>
      cases env.extractOut with
      | fail e => exact escape_stageFail_some env.ledgerFail 1 _ _ media none mm
      | ok v => exact escape_pipeAfterExtract_some env _ media (some TmpFile.audio) mm

lemma escape_run_none (env : PipelineEnv) (h : ∀ j, env.ledgerFail j = none) :
    (process_job_async env).2 = none := by
  rw [process_job_async_eq, h 0]
  cases hdl : (download_signed_url env.rc env.base env.expected env.att).1 with
  | sizeMismatch got exp leaked => exact escape_stageFail_none env.ledgerFail 1 _ _ none none (h 1)
  | exhausted msg => exact escape_stageFail_none env.ledgerFail 1 _ _ none none (h 1)
  | ok k total => exact escape_pipeAfterDownload_none env _ (some (TmpFile.media k)) h

lemma escape_run_some (env : PipelineEnv) (mm : String) :
    (process_job_async env).2 = some mm → ∃ j, env.ledgerFail j = some mm := by
  rw [process_job_async_eq]
  cases hlf0 : env.ledgerFail 0 with
  | some m =>
    intro h2
    exact ⟨1, escape_outerFail_some env.ledgerFail 1 m none none mm h2⟩
  | none =>
    cases hdl : (download_signed_url env.rc env.base env.expected env.att).1 with
    | sizeMismatch got exp leaked => exact escape_stageFail_some env.ledgerFail 1 _ _ none none mm
    | exhausted msg => exact escape_stageFail_some env.ledgerFail 1 _ _ none none mm
    | ok k total => exact escape_pipeAfterDownload_some env _ (some (TmpFile.media k)) mm

/-- C9 (amended): `update_job` logs and RE-RAISES ledger write failures. A
run against a healthy ledger lets nothing escape; but when writes fail, the
exception that escapes `process_job_async` is exactly a ledger write
exception — it is not swallowed. Even then the `finally`/`with` blocks
still run: the concurrency slot is released. -/
theorem ledger_write_failure_reraised (env : PipelineEnv) :
    ((∀ j, env.ledgerFail j = none) → (process_job_async env).2 = none) ∧
    (∀ m, (process_job_async env).2 = some m →
      (∃ j, env.ledgerFail j = some m) ∧ PEvent.release ∈ (process_job_async env).1) := by
  constructor
  · exact escape_run_none env
  · intro m hm
    refine ⟨escape_run_some env m hm, ?_⟩
    have hmem : PEvent.release ∈ ((process_job_async env).1).filter isGate := by
      rw [gate_events_run env]; simp
    exact List.mem_of_mem_filter hmem

/-- Witness for C9's amended theorem: with a ledger failing every write,
the escaping exception is the ledger's, and the slot is still released. -/
theorem ledger_write_failure_reraised_witness :
    (process_job_async { ledgerFail := fun _ => some "ledger down" }).2 = some "ledger down" ∧
    PEvent.release ∈ (process_job_async { ledgerFail := fun _ => some "ledger down" }).1 := by
  have h := ledger_write_failure_reraised { ledgerFail := fun _ => some "ledger down" }
  exact ⟨by decide, (h.2 "ledger down" (by decide)).2⟩

/-- C9 counterexample: with a ledger that rejects every write, the first
`update_job` failure is re-raised, the outer handler's own `failed` write
fails too, and the ledger exception escapes `process_job_async` — a ledger
write failure is logged but NOT swallowed. -/
theorem ledger_failure_escapes_pipeline :
    (process_job_async { ledgerFail := fun _ => some "ledger down" }).2 = some "ledger down" := by
  decide

/-! ## Error-string and abort lemmas -/

@[simp] lemma failedErrors_nil : failedErrors [] = [] := rfl

@[simp] lemma failedErrors_cons_acquire (l : List PEvent) :
    failedErrors (PEvent.acquire :: l) = failedErrors l := rfl

@[simp] lemma failedErrors_cons_release (l : List PEvent) :
    failedErrors (PEvent.release :: l) = failedErrors l := rfl

@[simp] lemma failedErrors_cons_tmpCreate (f : TmpFile) (l : List PEvent) :
    failedErrors (PEvent.tmpCreate f :: l) = failedErrors l := rfl

@[simp] lemma failedErrors_cons_tmpRemove (f : TmpFile) (l : List PEvent) :
    failedErrors (PEvent.tmpRemove f :: l) = failedErrors l := rfl

@[simp] lemma failedErrors_cons_write_none (s : String) (b : Bool) (l : List PEvent) :
    failedErrors (PEvent.write s none b :: l) = failedErrors l := rfl

@[simp] lemma failedErrors_cons_write_failed (m : String) (b : Bool) (l : List PEvent) :
    failedErrors (PEvent.write "failed" (some m) b :: l) = m :: failedErrors l := by
  simp [failedErrors]

@[simp] lemma failedErrors_append (l1 l2 : List PEvent) :
    failedErrors (l1 ++ l2) = failedErrors l1 ++ failedErrors l2 := by
  simp [failedErrors, List.filterMap_append]

@[simp] lemma failedErrors_finally (m a : Option TmpFile) :
    failedErrors (finallyEvents m a) = [] := by
  cases m <;> cases a <;> rfl

@[simp] lemma failedErrors_dEv (l : List FetchEvent) :
    failedErrors (l.filterMap fetchToP) = [] := by
  induction l with
  | nil => rfl
  | cons e l ih =>
    cases e with
    | tmpCreate k =>
      show failedErrors (PEvent.tmpCreate (TmpFile.media k) :: l.filterMap fetchToP) = []
      simpa using ih
    | tmpRemove k =>
      show failedErrors (PEvent.tmpRemove (TmpFile.media k) :: l.filterMap fetchToP) = []
      simpa using ih
    | sleepMs ms =>
      show failedErrors (l.filterMap fetchToP) = []
      exact ih

lemma failedErrors_outerFail (lf : Nat → Option String) (k : Nat) (e : String)
    (m a : Option TmpFile) :
    failedErrors (outerFail lf k e m a).1 = ["Unexpected error: " ++ strTake e 500] := by
  rw [outerFail_eq]
  cases lf k <;> simp

lemma failedErrors_stageFail (lf : Nat → Option String) (k : Nat) (t e : String)
    (m a : Option TmpFile) :
    ∀ mm ∈ failedErrors (stageFail lf k t e m a).1,
      mm = t ++ strTake e 500 ∨ ∃ raw, mm = "Unexpected error: " ++ strTake raw 500 := by
  rw [stageFail_eq]
  cases hlf : lf k with
  | none =>
    intro mm hmm
    simp at hmm
    exact Or.inl hmm
  | some m2 =>
    intro mm hmm
    simp [failedErrors_outerFail] at hmm
    rcases hmm with hmm | hmm
    · exact Or.inl hmm
    · exact Or.inr ⟨m2, hmm⟩

lemma failedErrors_pipeAfterExtract (env : PipelineEnv) (done : List PEvent)
    (media audio : Option TmpFile) :
    ∀ mm ∈ failedErrors (pipeAfterExtract env done media audio).1,
      mm ∈ failedErrors done ∨ ∃ t raw, t ∈ stageTags ∧ mm = t ++ strTake raw 500 := by
  unfold pipeAfterExtract
  cases env.whisper with
  | error e =>
    intro mm hmm
    simp only [failedErrors_append, List.mem_append] at hmm
    rcases hmm with hmm | hmm
    · exact Or.inl hmm
    · rcases failedErrors_stageFail _ _ _ _ _ _ mm hmm with h | ⟨raw, h⟩
      · exact Or.inr ⟨_, e, by decide, h⟩
      · exact Or.inr ⟨_, raw, by decide, h⟩
  | ok v =>
    cases env.upload with
    | error e =>
      intro mm hmm
      simp only [failedErrors_append, List.mem_append] at hmm
      rcases hmm with hmm | hmm
      · exact Or.inl hmm
      · rcases failedErrors_stageFail _ _ _ _ _ _ mm hmm with h | ⟨raw, h⟩
        · exact Or.inr ⟨_, e, by decide, h⟩
        · exact Or.inr ⟨_, raw, by decide, h⟩
    | ok u =>
      rw [update_job_valid env.ledgerFail 1 "completed" (by decide)]
      cases env.ledgerFail 1 with
      | none =>
        intro mm hmm
        simp only [failedErrors_append, failedErrors_cons_write_none,
          failedErrors_finally, List.append_nil] at hmm
        exact Or.inl hmm
      | some m =>
        intro mm hmm
        simp only [failedErrors_append, failedErrors_cons_write_none,
          failedErrors_outerFail, List.mem_append, List.mem_singleton] at hmm
        rcases hmm with hmm | hmm
        · exact Or.inl hmm
        · exact Or.inr ⟨_, m, by decide, hmm⟩

lemma failedErrors_pipeAfterDownload (env : PipelineEnv) (done : List PEvent)
    (media : Option TmpFile) :
    ∀ mm ∈ failedErrors (pipeAfterDownload env done media).1,
      mm ∈ failedErrors done ∨ ∃ t raw, t ∈ stageTags ∧ mm = t ++ strTake raw 500 := by
  unfold pipeAfterDownload
  cases env.audioOnly with
  | false => exact failedErrors_pipeAfterExtract env done media none
  | true =>
    cases env.ffmpegOk with
    | false =>
      intro mm hmm
      simp only [failedErrors_append, List.mem_append] at hmm
      rcases hmm with hmm | hmm
      · exact Or.inl hmm
      · rcases failedErrors_stageFail _ _ _ _ _ _ mm hmm with h | ⟨raw, h⟩
        · exact Or.inr ⟨_, _, by decide, h⟩
        · exact Or.inr ⟨_, raw, by decide, h⟩
    | true =>
      cases env.extractOut with
      | fail e =>
        intro mm hmm
        simp only [failedErrors_append, failedErrors_cons_tmpCreate, List.mem_append] at hmm
        rcases hmm with hmm | hmm
        · exact Or.inl hmm
        · rcases failedErrors_stageFail _ _ _ _ _ _ mm hmm with h | ⟨raw, h⟩
          · exact Or.inr ⟨_, e, by decide, h⟩
          · exact Or.inr ⟨_, raw, by decide, h⟩
      | ok v =>
        intro mm hmm
        rcases failedErrors_pipeAfterExtract env _ media (some TmpFile.audio) mm hmm with hmm2 | hmm2
        · left; simpa using hmm2
        · exact Or.inr hmm2

lemma failedErrors_run (env : PipelineEnv) :
    ∀ mm ∈ failedErrors (process_job_async env).1,
      ∃ t raw, t ∈ stageTags ∧ mm = t ++ strTake raw 500 := by
  rw [process_job_async_eq]
  cases hlf0 : env.ledgerFail 0 with
  | some m =>
    intro mm hmm
    simp only [failedErrors_cons_acquire, failedErrors_cons_write_none,
      failedErrors_outerFail, List.mem_singleton] at hmm
    exact ⟨_, m, by decide, hmm⟩
  | none =>
    cases hdl : (download_signed_url env.rc env.base env.expected env.att).1 with
    | sizeMismatch got exp leaked =>
      intro mm hmm
      simp only [failedErrors_cons_acquire, failedErrors_cons_write_none,
        failedErrors_append, failedErrors_dEv, List.nil_append] at hmm
      rcases failedErrors_stageFail _ _ _ _ _ _ mm hmm with h | ⟨raw, h⟩
      · exact ⟨_, _, by decide, h⟩
      · exact ⟨_, raw, by decide, h⟩
    | exhausted msg =>
      intro mm hmm
      simp only [failedErrors_cons_acquire, failedErrors_cons_write_none,
        failedErrors_append, failedErrors_dEv, List.nil_append] at hmm
      rcases failedErrors_stageFail _ _ _ _ _ _ mm hmm with h | ⟨raw, h⟩
      · exact ⟨_, msg, by decide, h⟩
      · exact ⟨_, raw, by decide, h⟩
    | ok k total =>
      intro mm hmm
      simp only [failedErrors_cons_acquire, failedErrors_cons_write_none] at hmm
      rcases failedErrors_pipeAfterDownload env _ (some (TmpFile.media k)) mm hmm with hmm2 | hmm2
      · simp at hmm2
      · exact hmm2

lemma errShapeOk_tagged (t raw : String) (h : t ∈ stageTags) :
    errShapeOk (t ++ strTake raw 500) = true := by
  have hlen : t.length ≤ 25 := by fin_cases h <;> decide
  have htake : (strTake raw 500).length ≤ 500 := by
    simp only [strTake, String.length, List.length_take]
    omega
  have hpre : t.data.isPrefixOf (t ++ strTake raw 500).data = true := by
    rw [List.isPrefixOf_iff_prefix, String.data_append]
    exact List.prefix_append t.data (strTake raw 500).data
  have hl : (t ++ strTake raw 500).length ≤ 525 := by
    rw [String.length_append]
    omega
  unfold errShapeOk
  rw [Bool.and_eq_true]
  constructor
  · rw [List.any_eq_true]
    exact ⟨t, h, hpre⟩
  · exact decide_eq_true hl

/-! ## Abort lemmas -/

lemma abortsOk_cons_not (e : PEvent) (l : List PEvent) (h : isFailedWrite e = false) :
    abortsOk (e :: l) = abortsOk l := by
  simp [abortsOk, h]

lemma abortsOk_cons_failed (e : PEvent) (l : List PEvent) (h : isFailedWrite e = true) :
    abortsOk (e :: l) = l.all windDown := by
  simp [abortsOk, h]

lemma abortsOk_append_clean (l X : List PEvent) (h : ∀ e ∈ l, isFailedWrite e = false) :
    abortsOk (l ++ X) = abortsOk X := by
  induction l with
  | nil => rfl
  | cons e l ih =>
    rw [List.cons_append, abortsOk_cons_not e _ (h e (List.mem_cons_self e l))]
    exact ih fun x hx => h x (List.mem_cons_of_mem e hx)

lemma dEv_clean (l : List FetchEvent) :
    ∀ e ∈ l.filterMap fetchToP, isFailedWrite e = false := by
  intro e he
  rcases List.mem_filterMap.mp he with ⟨fe, _, hfe⟩
  cases fe <;> simp [fetchToP] at hfe <;> simp [← hfe, isFailedWrite]

lemma abortsOk_finally (m a : Option TmpFile) : abortsOk (finallyEvents m a) = true := by
  cases m <;> cases a <;> rfl

lemma all_windDown_finally (m a : Option TmpFile) : (finallyEvents m a).all windDown = true := by
  cases m <;> cases a <;> rfl

lemma all_windDown_outerFail (lf : Nat → Option String) (k : Nat) (e : String)
    (m a : Option TmpFile) : ((outerFail lf k e m a).1).all windDown = true := by
  rw [outerFail_eq]
  cases lf k <;> simp [windDown, all_windDown_finally]

lemma abortsOk_outerFail (lf : Nat → Option String) (k : Nat) (e : String)
    (m a : Option TmpFile) : abortsOk (outerFail lf k e m a).1 = true := by
  rw [outerFail_eq]
  cases lf k <;>
    (rw [abortsOk_cons_failed _ _ (by simp [isFailedWrite])]; exact all_windDown_finally m a)

lemma abortsOk_stageFail (lf : Nat → Option String) (k : Nat) (t e : String)
    (m a : Option TmpFile) : abortsOk (stageFail lf k t e m a).1 = true := by
  rw [stageFail_eq]
  cases lf k with
  | none =>
    rw [abortsOk_cons_failed _ _ (by simp [isFailedWrite])]
    exact all_windDown_finally m a
  | some m2 =>
    rw [abortsOk_cons_failed _ _ (by simp [isFailedWrite])]
    exact all_windDown_outerFail lf (k + 1) m2 m a

lemma abortsOk_pipeAfterExtract (env : PipelineEnv) (done : List PEvent)
    (media audio : Option TmpFile) (h : ∀ e ∈ done, isFailedWrite e = false) :
    abortsOk (pipeAfterExtract env done media audio).1 = true := by
  unfold pipeAfterExtract
  cases env.whisper with
  | error e =>
    rw [abortsOk_append_clean done _ h]
    exact abortsOk_stageFail _ _ _ _ _ _
  | ok v =>
    cases env.upload with
    | error e =>
      rw [abortsOk_append_clean done _ h]
      exact abortsOk_stageFail _ _ _ _ _ _
    | ok u =>
      rw [update_job_valid env.ledgerFail 1 "completed" (by decide)]
      cases env.ledgerFail 1 with
      | none =>
        rw [abortsOk_append_clean done _ h, abortsOk_cons_not _ _ (by decide)]
        exact abortsOk_finally media audio
      | some m =>
        rw [abortsOk_append_clean done _ h, abortsOk_cons_not _ _ (by decide)]
        exact abortsOk_outerFail _ _ _ _ _

lemma abortsOk_pipeAfterDownload (env : PipelineEnv) (done : List PEvent)
    (media : Option TmpFile) (h : ∀ e ∈ done, isFailedWrite e = false) :
    abortsOk (pipeAfterDownload env done media).1 = true := by
  unfold pipeAfterDownload
  cases env.audioOnly with
  | false => exact abortsOk_pipeAfterExtract env done media none h
  | true =>
    cases env.ffmpegOk with
    | false =>
      rw [abortsOk_append_clean done _ h]
      exact abortsOk_stageFail _ _ _ _ _ _
    | true =>
      cases env.extractOut with
      | fail e =>
        rw [abortsOk_append_clean done _ h, abortsOk_cons_not _ _ (by decide)]
        exact abortsOk_stageFail _ _ _ _ _ _
      | ok v =>
        apply abortsOk_pipeAfterExtract
        intro x hx
        rcases List.mem_append.mp hx with hx | hx
        · exact h x hx
        · simp at hx
          simp [hx, isFailedWrite]

lemma abortsOk_run (env : PipelineEnv) : abortsOk (process_job_async env).1 = true := by
  rw [process_job_async_eq]
  cases hlf0 : env.ledgerFail 0 with
  | some m =>
    rw [abortsOk_cons_not _ _ (by decide), abortsOk_cons_not _ _ (by decide)]
    exact abortsOk_outerFail _ _ _ _ _
  | none =>
    cases hdl : (download_signed_url env.rc env.base env.expected env.att).1 with
    | sizeMismatch got exp leaked =>
      rw [abortsOk_cons_not _ _ (by decide), abortsOk_cons_not _ _ (by decide),
        abortsOk_append_clean _ _ (dEv_clean _)]
      exact abortsOk_stageFail _ _ _ _ _ _
    | exhausted msg =>
      rw [abortsOk_cons_not _ _ (by decide), abortsOk_cons_not _ _ (by decide),
        abortsOk_append_clean _ _ (dEv_clean _)]
      exact abortsOk_stageFail _ _ _ _ _ _
    | ok k total =>
      rw [abortsOk_cons_not _ _ (by decide), abortsOk_cons_not _ _ (by decide)]
      exact abortsOk_pipeAfterDownload env _ (some (TmpFile.media k)) (dEv_clean _)

/-- C7 (amended): every `status=failed` write of a pipeline run carries an
error string that is one of the five stage tags followed by the exception
text truncated to 500 characters — total length at most tag length + 500
(≤ 525, not ≤ 500) — and a stage failure immediately aborts the run: after
the first `failed` write only wind-down events (further `failed` writes,
temp-file removal, slot release) occur. -/
theorem pipeline_stage_error_tagged_truncated (env : PipelineEnv) :
    (∀ mm ∈ failedErrors (process_job_async env).1, errShapeOk mm = true) ∧
    abortsOk (process_job_async env).1 = true := by
  constructor
  · intro mm hmm
    rcases failedErrors_run env mm hmm with ⟨t, raw, ht, hmm2⟩
    rw [hmm2]
    exact errShapeOk_tagged t raw ht
  · exact abortsOk_run env

/-- Witness for C7's amended theorem at a concrete transcription-stage
failure. -/
theorem pipeline_stage_error_tagged_truncated_witness :
    errShapeOk "Whisper failed: boom" = true ∧
    abortsOk (process_job_async { whisper := Except.error "boom" }).1 = true := by
  have h := pipeline_stage_error_tagged_truncated { whisper := Except.error "boom" }
  refine ⟨?_, h.2⟩
  exact h.1 "Whisper failed: boom" (by decide)

set_option maxRecDepth 8192 in
/-- C7 counterexample: with a 500-character download error, the ledger
`error` string is `"Download failed: "` plus 500 truncated characters —
517 characters in total, exceeding the claimed 500-character bound (the
code truncates only `str(e)`, then prepends the stage tag). -/
theorem pipeline_error_exceeds_500_chars :
    (failedErrors (process_job_async
        { att := fun _ => AttemptOutcome.preFail ⟨List.replicate 500 'a'⟩ }).1).map
      String.length = [517] := by
  decide

/-- C8 evidence: a run whose download fails the size-integrity check leaks
the partial temp file for the remainder of the run (the `RuntimeError`
bypasses both the fetcher's own cleanup and the pipeline `finally`, which
only removes assigned paths); by contrast the spec's own example — a
transcription-stage failure — leaks nothing. -/
theorem pipeline_leaks_partial_download :
    leakedTemps (process_job_async
        { expected := some 1000, att := fun _ => AttemptOutcome.delivered 900 }).1
      = [TmpFile.media 0] ∧
    leakedTemps (process_job_async { whisper := Except.error "x" }).1 = [] := by
  decide

end Captioneer
